import Mathlib

/-!
The job store and the validation runner of mediastreamvalidator

A shallow embedding of `streamvalidator.go` (the data model) and `cmd/main.go`
(the in-memory store, the three HTTP handlers and `validate`).

Conventions of the embedding

* Go `string` is `String`, Go `int` is `Int`, Go `bool` is `Bool`, a Go slice is a
  `List` (the nil slice and the empty slice are both `[]`). A Go string is a byte
  sequence; the strings here come out of the JSON decoder and are valid UTF-8, for
  which the byte-wise suffix test of `strings.HasSuffix` against an ASCII suffix and
  the character-wise test agree.
* Go `float64` is carried as its 64-bit pattern (`Float64.bits`); the zero value is
  the pattern `0`. No arithmetic is done on these fields.
* `time.Time` is carried as a number of nanoseconds after the zero instant;
  the zero `time.Time` is `0`.
* A pointer to a `StreamValidator` is modelled by the value it points to; the store
  is the list of these values in insertion order.
* The operating system and the libraries outside the repository (`exec.LookPath`,
  `os.CreateTemp`, `cmd.Run`, `os.ReadFile`, `json.Unmarshal`, `os.Remove`,
  `uuid.New`, `time.Now`, the `BindJSON` of gin) are not code of the repository: their
  results are inputs of the model (`Host`, `Request`, and the `uuid`/`now`
  arguments of `postContents`).
-/

namespace MSV

/-! ## Data model (`streamvalidator.go`) -/

/-- Go `float64`, carried as its bit pattern. -/
structure Float64 where
  bits : Nat := 0
  deriving DecidableEq, Repr

/-- Go `time.Time`, carried as nanoseconds after the zero instant. -/
abbrev Time := Nat

/-- Element type of `ValidationInfo.Messages`. -/
structure Message where
  ErrorComment : String := ""
  ErrorDomain : String := ""
  ErrorStatusCode : Int := 0
  ErrorRequirementLevel : Int := 0
  ErrorDetail : String := ""
  ErrorReferenceDataID : Int := 0
  deriving DecidableEq, Repr

/-- Element type of `Variants[i].Messages`. -/
structure VariantMessage where
  ErrorComment : String := ""
  ErrorDomain : String := ""
  ErrorStatusCode : Int := 0
  ErrorRequirementLevel : Int := 0
  ErrorDetail : String := ""
  deriving DecidableEq, Repr

/-- Element type of `AudioGroup.Renditions`. -/
structure AudioRendition where
  URL : String := ""
  PersistentID : Int := 0
  deriving DecidableEq, Repr

/-- The `AudioGroup` field of a variant. -/
structure AudioGroup where
  PlaylistGroupID : String := ""
  Renditions : List AudioRendition := []
  deriving DecidableEq, Repr

/-- Element type of `ClosedCaptionGroup.Renditions`. -/
structure ClosedCaptionRendition where
  PersistentID : Int := 0
  deriving DecidableEq, Repr

/-- The `ClosedCaptionGroup` field of a variant. -/
structure ClosedCaptionGroup where
  PlaylistGroupID : String := ""
  Renditions : List ClosedCaptionRendition := []
  deriving DecidableEq, Repr

/-- Element type of `Discontinuities[i].Segments`. -/
structure Segment where
  MediaSequence : Int := 0
  SegmentDurationTag : Float64 := {}
  HasSampleAuxInfo : Bool := false
  MimeType : String := ""
  DataID : Int := 0
  URL : String := ""
  SegmentByteRangeLength : Int := 0
  VideoStartsWithIDR : Bool := false
  SslContentDeliveredSecurely : Bool := false
  SegmentByteRangeOffset : Int := 0
  Format : String := ""
  SegmentDateStamp : String := ""
  VideoFrameRate : Float64 := {}
  StartTime : Float64 := {}
  DiscontinuityDomain : Int := 0
  deriving DecidableEq, Repr

/-- The `Measurements` field of a discontinuity. -/
structure Measurements where
  MeasuredMaxBitrate : Float64 := {}
  MeasuredMeanBitrate : Float64 := {}
  MeasuredSegments : Int := 0
  deriving DecidableEq, Repr

/-- Element type of `Discontinuities[i].Tracks`. -/
structure Track where
  TrackVideoIDRStandardDeviation : Int := 0
  TrackID : Int := 0
  TrackVideoWidth : Int := 0
  TrackVideoLevel : Int := 0
  TrackVideoTransferFunction : String := ""
  TrackVideoHeight : Int := 0
  TrackMediaType : String := ""
  TrackVideoIDRInterval : Float64 := {}
  TrackVideoIsInterlaced : Bool := false
  TrackVideoProfile : Int := 0
  TrackMediaSubType : String := ""
  deriving DecidableEq, Repr

/-- Element type of `Variants[i].Discontinuities`. -/
structure Discontinuity where
  Segments : List Segment := []
  Measurements : Measurements := {}
  Tracks : List Track := []
  deriving DecidableEq, Repr

/-- Element type of `ValidationInfo.Variants`. -/
structure Variant where
  MaxFrameRate : Float64 := {}
  VideoRangeKey : String := ""
  MimeType : String := ""
  ProcessedSegmentsCount : Int := 0
  URL : String := ""
  HasDiscSequenceTag : Bool := false
  Messages : List VariantMessage := []
  MeanSegmentCount : Int := 0
  MeasuredMeanBitrate : Int := 0
  ParsedSegmentsCount : Int := 0
  PlaylistMeanBitrate : Int := 0
  HasEndTag : Bool := false
  PlaylistCodecs : String := ""
  PlaylistResolutionHeight : Int := 0
  MeanTotalDuration : Float64 := {}
  MeasuredMaxBitrate : Int := 0
  IndependentSegments : Bool := false
  AudioGroup : AudioGroup := {}
  ClosedCaptionGroup : ClosedCaptionGroup := {}
  IframeOnly : Bool := false
  PlaylistKind : String := ""
  PlaylistMaxBitrate : Int := 0
  SslContentDeliveredSecurely : Bool := false
  Discontinuities : List Discontinuity := []
  PlaylistTargetDuration : Int := 0
  PlaylistResolutionWidth : Int := 0
  GzipEncoded : Bool := false
  DataID : Int := 0
  PlaylistDefault : Bool := false
  PlaylistName : String := ""
  PersistentID : Int := 0
  PlaylistLanguage : String := ""
  PlaylistAutoselect : Bool := false
  PlaylistMediaType : String := ""
  PlaylistGroupID : String := ""
  IsRendition : Bool := false
  PlaylistChannels : String := ""
  deriving DecidableEq, Repr

/-- The report written by the external tool. `({} : ValidationInfo)` is the Go
zero value of the type. -/
structure ValidationInfo where
  IndependentSegments : Bool := false
  PlaylistKind : String := ""
  MimeType : String := ""
  DataID : Int := 0
  GzipEncoded : Bool := false
  ValidatorVersion : String := ""
  ValidatorTimestamp : String := ""
  Messages : List Message := []
  SslContentDeliveredSecurely : Bool := false
  URL : String := ""
  Variants : List Variant := []
  DataVersion : Float64 := {}
  deriving DecidableEq, Repr

/-- One job: `StreamValidator` of `streamvalidator.go`. -/
structure StreamValidator where
  Id : String := ""
  URL : String := ""
  Validation : ValidationInfo := {}
  Status : String := ""
  StartTime : Time := 0
  EndTime : Time := 0
  deriving DecidableEq, Repr

/-! ## The store and the HTTP handlers (`cmd/main.go`) -/

/-- The process-wide store `contents`: `Database` is `none` while the Go pointer is
nil and `some l` once the array exists, `l` listing the jobs in insertion order. -/
structure db where
  Database : Option (List StreamValidator) := none
  deriving DecidableEq, Repr

/-- The jobs held by the store; a nil `Database` holds none. -/
def db.jobs (contents : db) : List StreamValidator :=
  match contents.Database with
  | none => []
  | some l => l

/-- The store at process start: the global `contents` with a nil `Database`. -/
def emptyStore : db := { Database := none }

/-- The function `getInstance`: create the array if it does not exist yet. -/
def getInstance (contents : db) : db :=
  match contents.Database with
  | none => { Database := some [] }
  | some _ => contents

/-- The call `Database.Push`: append at the end. After `getInstance` the array
exists; a nil array is left as it is. -/
def db.Push (contents : db) (j : StreamValidator) : db :=
  match contents.Database with
  | none => contents
  | some l => { Database := some (l ++ [j]) }

/-- What a handler writes to the client. -/
inductive Response where
  /-- The call `c.JSON(code, job)`. -/
  | job (code : Nat) (j : StreamValidator)
  /-- The call `c.JSON(code, contents.Database)`. -/
  | list (code : Nat) (l : List StreamValidator)
  /-- The call `c.JSON(code, m)` with `m` the map from `message` to `msg`. -/
  | message (code : Nat) (msg : String)
  /-- The response with no JSON payload that `BindJSON` writes on failure. -/
  | abort (code : Nat)
  deriving DecidableEq, Repr

/-- The members of a JSON object sent as the body of a creation request, by the
`json` tag of the `StreamValidator` field each one binds to; `none` is a member
that is absent. A `validation_info` member is given by the value it decodes to. -/
structure Body where
  id : Option String := none
  url : Option String := none
  validation_info : Option ValidationInfo := none
  status : Option String := none
  start_time : Option Time := none
  end_time : Option Time := none
  deriving DecidableEq, Repr

/-- A creation request as `BindJSON` sees it: a body it rejects (not JSON, not an
object, or a member of the wrong type), or a JSON object it accepts. -/
inductive Request where
  | malformed
  | json (b : Body)
  deriving DecidableEq, Repr

/-- The call `c.BindJSON(&newContent)`: every member present in the body overwrites the field
it is tagged for, every other field keeps the value it had; `none` is the error. -/
def BindJSON (r : Request) (obj : StreamValidator) : Option StreamValidator :=
  match r with
  | .malformed => none
  | .json b =>
    some { Id := b.id.getD obj.Id
           URL := b.url.getD obj.URL
           Validation := b.validation_info.getD obj.Validation
           Status := b.status.getD obj.Status
           StartTime := b.start_time.getD obj.StartTime
           EndTime := b.end_time.getD obj.EndTime }

/-- Result of `postContents`: the store afterwards, the response, and the job handed
to `go validate(...)`, if any. -/
structure PostResult where
  contents : db
  response : Response
  scheduled : Option StreamValidator
  deriving DecidableEq, Repr

/-- The handler `postContents`; `uuid` is the value of `uuid.New().String()` and `now` the value of
`time.Now().UTC()` in this call. -/
def postContents (contents : db) (uuid : String) (now : Time) (r : Request) : PostResult :=
  let newContent : StreamValidator :=
    { Id := uuid
      URL := ""
      Validation := {}
      Status := "queued"
      StartTime := now
      EndTime := 0 }
  match BindJSON r newContent with
  | none => { contents := contents, response := .abort 400, scheduled := none }
  | some newContent =>
    let contents := getInstance contents
    let contents := contents.Push newContent
    { contents := contents, response := .job 201 newContent, scheduled := some newContent }

/-- The handler `getContents`. -/
def getContents (contents : db) : db × Response :=
  let contents := getInstance contents
  (contents, .list 200 contents.jobs)

/-- The loop of `getContentByID` over the entries from index `i` on, given as the
list of the entries not yet visited. -/
def getContentByID.loop (id : String) : List StreamValidator → Response
  | [] => .message 404 "content not found"
  | j :: rest => if j.Id = id then .job 200 j else getContentByID.loop id rest

/-- The handler `getContentByID`; `id` is the `id` parameter of the route. -/
def getContentByID (contents : db) (id : String) : db × Response :=
  let contents := getInstance contents
  (contents, getContentByID.loop id contents.jobs)

/-- One creation request together with the two values the handler draws for it. -/
structure Call where
  uuid : String
  now : Time
  request : Request
  deriving DecidableEq, Repr

/-- The store after a sequence of creation requests, served one after the other. -/
def serve (contents : db) : List Call → db
  | [] => contents
  | c :: rest => serve (postContents contents c.uuid c.now c.request).contents rest

/-! ## The validation runner (`validate` of `cmd/main.go`) -/

/-- The library function `strings.HasSuffix`: `s` is at least as long as `suffix` and
its last `len(suffix)` characters are `suffix`. -/
def HasSuffix (s suffix : String) : Bool :=
  decide (suffix.length ≤ s.length) && (s.data.drop (s.length - suffix.length) == suffix.data)

/-- The results of the steps `validate` takes outside the program, one per step;
`none` and `false` are the error results. -/
structure Host where
  /-- The path found by `exec.LookPath(file)`. -/
  LookPath : String → Option String
  /-- The name of the file created by `os.CreateTemp(dir, pattern)`. -/
  CreateTemp : String → String → Option String
  /-- Whether `exec.Command(exe, args...).Run()` ended without error, and the
  files that exist afterwards as a function of those that existed before. -/
  Run : String → List String → Bool × (List String → List String)
  /-- The bytes read by `os.ReadFile(name)`. -/
  ReadFile : String → Option (List Nat)
  /-- Whether `json.Unmarshal(b, &v)` ended without error, and `v` afterwards. -/
  Unmarshal : List Nat → ValidationInfo → Bool × ValidationInfo
  /-- Whether `os.Remove(name)` ended without error. -/
  Remove : String → Bool

/-- What a run of `validate` does, in order. -/
inductive Event where
  | setStatus (s : String)
  | lookPath (file : String)
  | createTemp (dir pattern : String)
  | run (exe : String) (args : List String)
  | readFile (name : String)
  | unmarshal (b : List Nat)
  | remove (name : String)
  deriving DecidableEq, Repr

/-- The job, the names of the files that exist, and the steps taken so far. -/
structure Run where
  content : StreamValidator
  files : List String
  trace : List Event
  deriving DecidableEq, Repr

/-- The assignment `content.Status = s`. -/
def Run.setStatus (r : Run) (s : String) : Run :=
  { r with content := { r.content with Status := s }, trace := r.trace ++ [.setStatus s] }

/-- Record a step. -/
def Run.emit (r : Run) (e : Event) : Run :=
  { r with trace := r.trace ++ [e] }

/-- The deferred function of `validate`: remove the temporary file; a file that was
removed no longer exists, a failed removal changes no file and sets `error`. -/
def validate.deferred (h : Host) (name : String) (r : Run) : Run :=
  let r := r.emit (.remove name)
  if h.Remove name then
    { r with files := r.files.filter (fun f => f ≠ name) }
  else
    r.setStatus "error"

/-- The part of `validate` between the `defer` statement and the deferred call. -/
def validate.body (h : Host) (exe name : String) (r : Run) : Run :=
  let arguments : List String := []
  let arguments := arguments ++ ["-t"]
  let arguments := arguments ++ ["30"]
  let arguments := arguments ++ ["--validation-data-path=" ++ name]
  let arguments := arguments ++ [r.content.URL]
  let r := r.emit (.run exe arguments)
  let out := h.Run exe arguments
  let r := { r with files := out.2 r.files }
  if !out.1 then
    r.setStatus "error"
  else
    let r := r.emit (.readFile name)
    match h.ReadFile name with
    | none => r.setStatus "error"
    | some b =>
      let r := r.emit (.unmarshal b)
      let res := h.Unmarshal b r.content.Validation
      let r := { r with content := { r.content with Validation := res.2 } }
      if !res.1 then
        r.setStatus "error"
      else
        r.setStatus "completed"

/-- The function `validate`, started on `content` with the files `files` in existence. -/
def validate (h : Host) (content : StreamValidator) (files : List String) : Run :=
  let r : Run := { content := content, files := files, trace := [] }
  if HasSuffix r.content.URL ".mpd" then
    r.setStatus "skipped"
  else
    let r := r.setStatus "processing"
    let r := r.emit (.lookPath "mediastreamvalidator")
    match h.LookPath "mediastreamvalidator" with
    | none => r.setStatus "error"
    | some exe =>
      let r := r.emit (.createTemp "/tmp" "msv-")
      match h.CreateTemp "/tmp" "msv-" with
      | none => r.setStatus "error"
      | some name =>
        let r := { r with files := name :: r.files }
        let r := validate.body h exe name r
        validate.deferred h name r

/-- The values written to `content.Status` during a run, in order. -/
def statusWrites : List Event → List String
  | [] => []
  | .setStatus s :: rest => s :: statusWrites rest
  | _ :: rest => statusWrites rest

/-- A host on which every step succeeds: the tool leaves the files as they are and
the report read back is `v`. -/
def hostOk (v : ValidationInfo) : Host :=
  { LookPath := fun _ => some "/usr/local/bin/mediastreamvalidator"
    CreateTemp := fun _ _ => some "/tmp/msv-1"
    Run := fun _ _ => (true, fun fs => fs)
    ReadFile := fun _ => some []
    Unmarshal := fun _ _ => (true, v)
    Remove := fun _ => true }

/-- Whether the step is the executable lookup. -/
def Event.isLookPath : Event → Bool
  | .lookPath _ => true
  | _ => false

/-- Whether the step is the creation of the temporary file. -/
def Event.isCreateTemp : Event → Bool
  | .createTemp _ _ => true
  | _ => false

/-- Whether the step is the subprocess. -/
def Event.isRun : Event → Bool
  | .run _ _ => true
  | _ => false

/-- Whether the step is the read of the output file. -/
def Event.isReadFile : Event → Bool
  | .readFile _ => true
  | _ => false

/-- Whether the step is the deserialization. -/
def Event.isUnmarshal : Event → Bool
  | .unmarshal _ => true
  | _ => false

/-- Whether a run took a step of the given kind. -/
def Run.performs (r : Run) (kind : Event → Bool) : Bool :=
  r.trace.any kind

/-- The argument list `validate` builds for the tool. -/
def toolArgs (name url : String) : List String :=
  ["-t", "30", "--validation-data-path=" ++ name, url]

/-- Whether a status is one of `completed`, `skipped`, `error`. -/
def terminal (s : String) : Bool :=
  s == "completed" || s == "skipped" || s == "error"

/-- No write that follows a write of a terminal status writes another value. -/
def TerminalStable (writes : List String) : Prop :=
  writes.Pairwise (fun a b => terminal a = true → b = a)

/-- The run started by `go validate(newContent)` at the end of `postContents`, on a
given host and set of existing files; `none` when the handler returned before it. -/
def PostResult.spawned (p : PostResult) (h : Host) (files : List String) : Option Run :=
  p.scheduled.map (fun content => validate h content files)

/-- A host without the tool: the executable lookup fails. -/
def hostNoTool : Host :=
  { hostOk {} with LookPath := fun _ => none }

/-- A host on which every step succeeds except the removal of the temporary file. -/
def hostRemoveFails (v : ValidationInfo) : Host :=
  { hostOk v with Remove := fun _ => false }

/-- A report that is not the zero value: one diagnostic-free report of kind `VOD`. -/
def sampleReport : ValidationInfo := { PlaylistKind := "VOD" }

/-! ## Properties of `validate` -/

theorem hasSuffix_iff (s suffix : String) :
    HasSuffix s suffix = true ↔ ∃ p : String, s = p ++ suffix := by
  constructor
  · intro h
    simp only [HasSuffix, Bool.and_eq_true, decide_eq_true_eq, beq_iff_eq] at h
    refine ⟨⟨s.data.take (s.length - suffix.length)⟩, ?_⟩
    apply String.ext
    simp only [String.data_append]
    rw [← h.2, List.take_append_drop]
  · rintro ⟨p, rfl⟩
    have e : (String.append p suffix).data = p.data ++ suffix.data := String.data_append p suffix
    simp only [HasSuffix, Bool.and_eq_true, decide_eq_true_eq, beq_iff_eq, String.length, e,
      List.length_append]
    refine ⟨by omega, ?_⟩
    rw [Nat.add_sub_cancel]
    show List.drop p.data.length (String.append p suffix).data = suffix.data
    rw [e, List.drop_left]

/-- C1: a job whose URL ends in `.mpd` finishes `validate` with status `skipped`,
whatever the host and the files are; the only step of the run is that status write
(no executable lookup, no temporary file, no subprocess) and the files are as before. -/
theorem C1_mpd_is_skipped (h : Host) (content : StreamValidator) (files : List String)
    (hurl : HasSuffix content.URL ".mpd" = true) :
    (validate h content files).content.Status = "skipped" ∧
    (validate h content files).trace = [Event.setStatus "skipped"] ∧
    (validate h content files).performs Event.isLookPath = false ∧
    (validate h content files).performs Event.isCreateTemp = false ∧
    (validate h content files).performs Event.isRun = false ∧
    (validate h content files).files = files := by
  simp [validate, hurl, Run.setStatus, Run.performs, Event.isLookPath, Event.isCreateTemp,
    Event.isRun]

/-- An instance of C1: a job for a `.mpd` manifest on a host that has the tool. -/
theorem C1_mpd_is_skipped_witness :
    HasSuffix "https://example.com/live/manifest.mpd" ".mpd" = true ∧
    (validate (hostOk sampleReport)
      { Id := "1", URL := "https://example.com/live/manifest.mpd", Status := "queued" }
      ["/tmp/other"]).content.Status = "skipped" :=
  ⟨by decide,
   (C1_mpd_is_skipped (hostOk sampleReport)
      { Id := "1", URL := "https://example.com/live/manifest.mpd", Status := "queued" }
      ["/tmp/other"] (by decide)).1⟩

/-- C2: for a job whose URL does not end in `.mpd`, a failure of the executable
lookup, of the creation of the temporary file, of the subprocess, of the read of the
output file or of the deserialization ends `validate` with status `error`, and none of
the steps that follow the failed one in that sequence is taken; when the lookup or
the creation fails the files are as before. -/
theorem C2_failure_is_error (h : Host) (content : StreamValidator) (files : List String)
    (hurl : HasSuffix content.URL ".mpd" = false) :
    (h.LookPath "mediastreamvalidator" = none →
      (validate h content files).content.Status = "error" ∧
      (validate h content files).performs Event.isCreateTemp = false ∧
      (validate h content files).performs Event.isRun = false ∧
      (validate h content files).performs Event.isReadFile = false ∧
      (validate h content files).performs Event.isUnmarshal = false ∧
      (validate h content files).files = files) ∧
    (∀ exe, h.LookPath "mediastreamvalidator" = some exe →
      h.CreateTemp "/tmp" "msv-" = none →
      (validate h content files).content.Status = "error" ∧
      (validate h content files).performs Event.isRun = false ∧
      (validate h content files).performs Event.isReadFile = false ∧
      (validate h content files).performs Event.isUnmarshal = false ∧
      (validate h content files).files = files) ∧
    (∀ exe name, h.LookPath "mediastreamvalidator" = some exe →
      h.CreateTemp "/tmp" "msv-" = some name →
      (h.Run exe (toolArgs name content.URL)).1 = false →
      (validate h content files).content.Status = "error" ∧
      (validate h content files).performs Event.isReadFile = false ∧
      (validate h content files).performs Event.isUnmarshal = false) ∧
    (∀ exe name, h.LookPath "mediastreamvalidator" = some exe →
      h.CreateTemp "/tmp" "msv-" = some name →
      (h.Run exe (toolArgs name content.URL)).1 = true →
      h.ReadFile name = none →
      (validate h content files).content.Status = "error" ∧
      (validate h content files).performs Event.isUnmarshal = false) ∧
    (∀ exe name b, h.LookPath "mediastreamvalidator" = some exe →
      h.CreateTemp "/tmp" "msv-" = some name →
      (h.Run exe (toolArgs name content.URL)).1 = true →
      h.ReadFile name = some b →
      (h.Unmarshal b content.Validation).1 = false →
      (validate h content files).content.Status = "error") := by
  refine ⟨?_, ?_, ?_, ?_, ?_⟩
  · intro h1
    simp [validate, hurl, h1, Run.setStatus, Run.emit, Run.performs, Event.isCreateTemp,
      Event.isRun, Event.isReadFile, Event.isUnmarshal]
  · intro exe h1 h2
    simp [validate, hurl, h1, h2, Run.setStatus, Run.emit, Run.performs,
      Event.isRun, Event.isReadFile, Event.isUnmarshal]
  · intro exe name h1 h2 h3
    simp only [toolArgs] at h3
    cases hr : h.Remove name <;>
    simp [validate, validate.body, validate.deferred, hurl, h1, h2, h3, hr, Run.setStatus,
      Run.emit, Run.performs, Event.isReadFile, Event.isUnmarshal]
  · intro exe name h1 h2 h3 h4
    simp only [toolArgs] at h3
    cases hr : h.Remove name <;>
    simp [validate, validate.body, validate.deferred, hurl, h1, h2, h3, h4, hr, Run.setStatus,
      Run.emit, Run.performs, Event.isUnmarshal]
  · intro exe name b h1 h2 h3 h4 h5
    simp only [toolArgs] at h3
    cases hr : h.Remove name <;>
    simp [validate, validate.body, validate.deferred, hurl, h1, h2, h3, h4, h5, hr,
      Run.setStatus, Run.emit]

/-- An instance of C2: a job for an HLS playlist on a host without the tool. -/
theorem C2_failure_is_error_witness :
    HasSuffix "https://example.com/hls/master.m3u8" ".mpd" = false ∧
    hostNoTool.LookPath "mediastreamvalidator" = none ∧
    (validate hostNoTool
      { Id := "1", URL := "https://example.com/hls/master.m3u8", Status := "queued" }
      []).content.Status = "error" :=
  ⟨by decide, rfl,
   ((C2_failure_is_error hostNoTool
      { Id := "1", URL := "https://example.com/hls/master.m3u8", Status := "queued" }
      [] (by decide)).1 rfl).1⟩

/-- The sequences of status writes a run of `validate` can make. -/
theorem statusWrites_validate (h : Host) (content : StreamValidator) (files : List String) :
    statusWrites (validate h content files).trace = ["skipped"] ∨
    statusWrites (validate h content files).trace = ["processing", "error"] ∨
    (statusWrites (validate h content files).trace = ["processing", "completed"] ∧
      ∀ name, h.CreateTemp "/tmp" "msv-" = some name → h.Remove name = true) ∨
    ((statusWrites (validate h content files).trace = ["processing", "error", "error"] ∨
      statusWrites (validate h content files).trace = ["processing", "completed", "error"]) ∧
      ∃ name, h.CreateTemp "/tmp" "msv-" = some name ∧ h.Remove name = false) := by
  cases hurl : HasSuffix content.URL ".mpd"
  · cases h1 : h.LookPath "mediastreamvalidator" with
    | none => simp [validate, hurl, h1, Run.setStatus, Run.emit, statusWrites]
    | some exe =>
      cases h2 : h.CreateTemp "/tmp" "msv-" with
      | none => simp [validate, hurl, h1, h2, Run.setStatus, Run.emit, statusWrites]
      | some name =>
        cases hr : h.Remove name <;>
        cases h3 : (h.Run exe ["-t", "30", "--validation-data-path=" ++ name, content.URL]).1
        all_goals try
          simp [validate, validate.body, validate.deferred, hurl, h1, h2, h3, hr,
            Run.setStatus, Run.emit, statusWrites]
        all_goals
          cases h4 : h.ReadFile name with
          | none =>
            simp [validate, validate.body, validate.deferred, hurl, h1, h2, h3, h4, hr,
              Run.setStatus, Run.emit, statusWrites]
          | some b =>
            cases h5 : (h.Unmarshal b content.Validation).1 <;>
            simp [validate, validate.body, validate.deferred, hurl, h1, h2, h3, h4, h5, hr,
              Run.setStatus, Run.emit, statusWrites]
  · simp [validate, hurl, Run.setStatus, statusWrites]

/-- C3, as stated, fails: when every step succeeds and the removal of the temporary
file then fails, the run writes `completed` and afterwards `error`. -/
theorem C3_completed_then_error :
    statusWrites (validate (hostRemoveFails sampleReport)
      { Id := "1", URL := "https://example.com/hls/master.m3u8", Status := "queued" }
      []).trace = ["processing", "completed", "error"] ∧
    ¬ TerminalStable (statusWrites (validate (hostRemoveFails sampleReport)
      { Id := "1", URL := "https://example.com/hls/master.m3u8", Status := "queued" }
      []).trace) := by
  have e : statusWrites (validate (hostRemoveFails sampleReport)
      { Id := "1", URL := "https://example.com/hls/master.m3u8", Status := "queued" }
      []).trace = ["processing", "completed", "error"] := by decide
  refine ⟨e, ?_⟩
  rw [e]
  simp [TerminalStable, terminal]

/-- C3, amended: in every run of `validate`, after a write of `skipped` or `error` no
later write writes another value; after a write of `completed` the only later write
is `error`; and that write is made only when the removal of the temporary file fails:
when the removal succeeds, no write follows a write of a terminal status with another
value. -/
theorem C3_terminal_writes (h : Host) (content : StreamValidator) (files : List String) :
    (statusWrites (validate h content files).trace).Pairwise
      (fun a b => ((a = "skipped" ∨ a = "error") → b = a) ∧ (a = "completed" → b = "error")) ∧
    ((∀ name, h.CreateTemp "/tmp" "msv-" = some name → h.Remove name = true) →
      TerminalStable (statusWrites (validate h content files).trace)) := by
  rcases statusWrites_validate h content files with e | e | ⟨e, -⟩ | ⟨e | e, name, hn, hr⟩
  all_goals rw [e]
  all_goals refine ⟨by decide, ?_⟩
  all_goals intro hrm
  any_goals (rw [hrm name hn] at hr; exact absurd hr (by decide))
  all_goals simp [TerminalStable, terminal]

/-- C4, as stated, fails in both directions. A report file holding the empty JSON
object deserializes without error to the zero value, and the job is `completed` with
an empty report; and when the removal of the temporary file fails after a report
was read, the job is `error` with a non-empty report. -/
theorem C4_completed_not_iff_report :
    (∃ r, (postContents emptyStore "id-1" 0
        (.json { url := some "https://example.com/hls/master.m3u8" })).spawned
        (hostOk {}) [] = some r ∧
      r.content.Status = "completed" ∧ r.content.Validation = {} ∧
      ¬ (r.content.Status = "completed" ↔ r.content.Validation ≠ {})) ∧
    (∃ r, (postContents emptyStore "id-1" 0
        (.json { url := some "https://example.com/hls/master.m3u8" })).spawned
        (hostRemoveFails sampleReport) [] = some r ∧
      r.content.Status = "error" ∧ r.content.Validation = sampleReport ∧
      ¬ (r.content.Status = "completed" ↔ r.content.Validation ≠ {})) := by
  refine ⟨⟨_, rfl, ?_⟩, ⟨_, rfl, ?_⟩⟩
  · decide
  · decide

/-- C4, amended: for a job created by a well-formed creation request that has no
`validation_info` member, and for every outcome of the external steps, once `validate`
has finished: the status is `completed` exactly when the URL does not end in `.mpd`
and the lookup, the creation of the temporary file, the subprocess, the read, the
deserialization and the removal of the temporary file all succeeded; in that case the
report is the value the deserialization produced (which may be the zero value); and
when `validate` finishes without having run the deserialization the report is the zero
value. -/
theorem C4_completed_report (contents : db) (uuid : String) (now : Time) (b : Body)
    (h : Host) (files : List String) (j : StreamValidator)
    (hv : b.validation_info = none)
    (hj : (postContents contents uuid now (.json b)).scheduled = some j) :
    ((validate h j files).content.Status = "completed" ↔
      HasSuffix j.URL ".mpd" = false ∧
      ∃ exe name bytes, h.LookPath "mediastreamvalidator" = some exe ∧
        h.CreateTemp "/tmp" "msv-" = some name ∧
        (h.Run exe (toolArgs name j.URL)).1 = true ∧
        h.ReadFile name = some bytes ∧
        (h.Unmarshal bytes {}).1 = true ∧
        h.Remove name = true) ∧
    ((validate h j files).content.Status = "completed" →
      ∃ name bytes, h.CreateTemp "/tmp" "msv-" = some name ∧ h.ReadFile name = some bytes ∧
        (validate h j files).content.Validation = (h.Unmarshal bytes {}).2) ∧
    ((validate h j files).performs Event.isUnmarshal = false →
      (validate h j files).content.Validation = {}) := by
  have hjv : j.Validation = {} := by
    simp only [postContents, BindJSON, Option.some.injEq] at hj
    rw [← hj]
    simp [hv]
  simp only [toolArgs]
  cases hurl : HasSuffix j.URL ".mpd"
  · cases h1 : h.LookPath "mediastreamvalidator" with
    | none =>
      simp [validate, hurl, h1, hjv, Run.setStatus, Run.emit, Run.performs, Event.isUnmarshal]
    | some exe =>
      cases h2 : h.CreateTemp "/tmp" "msv-" with
      | none =>
        simp [validate, hurl, h1, h2, hjv, Run.setStatus, Run.emit, Run.performs,
          Event.isUnmarshal]
      | some name =>
        cases hr : h.Remove name <;>
        cases h3 : (h.Run exe ["-t", "30", "--validation-data-path=" ++ name, j.URL]).1
        all_goals try
          simp [validate, validate.body, validate.deferred, hurl, h1, h2, h3, hr, hjv,
            Run.setStatus, Run.emit, Run.performs, Event.isUnmarshal]
        all_goals
          cases h4 : h.ReadFile name with
          | none =>
            simp [validate, validate.body, validate.deferred, hurl, h1, h2, h3, h4, hr, hjv,
              Run.setStatus, Run.emit, Run.performs, Event.isUnmarshal]
          | some bytes =>
            cases h5 : (h.Unmarshal bytes {}).1 <;>
            simp [validate, validate.body, validate.deferred, hurl, h1, h2, h3, h4, h5, hr,
              hjv, Run.setStatus, Run.emit, Run.performs, Event.isUnmarshal]
  · simp [validate, hurl, hjv, Run.setStatus, Run.performs, Event.isUnmarshal]

/-- An instance of the amended C4: the job of a request carrying only a URL, run on
a host without the tool, ends with the zero-value report. -/
theorem C4_completed_report_witness :
    (postContents emptyStore "id-1" 0
      (.json { url := some "https://example.com/hls/master.m3u8" })).scheduled =
      some { Id := "id-1", URL := "https://example.com/hls/master.m3u8", Status := "queued" } ∧
    (validate hostNoTool
      { Id := "id-1", URL := "https://example.com/hls/master.m3u8", Status := "queued" }
      []).content.Validation = {} :=
  ⟨rfl,
   (C4_completed_report emptyStore "id-1" 0
      { url := some "https://example.com/hls/master.m3u8" } hostNoTool []
      { Id := "id-1", URL := "https://example.com/hls/master.m3u8", Status := "queued" }
      rfl rfl).2.2 (by decide)⟩

/-- C7, as stated, fails: when the removal of the temporary file fails, the file the
run created still exists when `validate` returns. -/
theorem C7_temp_file_left_behind :
    (hostRemoveFails sampleReport).CreateTemp "/tmp" "msv-" = some "/tmp/msv-1" ∧
    Event.createTemp "/tmp" "msv-" ∈ (validate (hostRemoveFails sampleReport)
      { Id := "1", URL := "https://example.com/hls/master.m3u8", Status := "queued" }
      []).trace ∧
    "/tmp/msv-1" ∈ (validate (hostRemoveFails sampleReport)
      { Id := "1", URL := "https://example.com/hls/master.m3u8", Status := "queued" }
      []).files := by
  decide

/-- C7, amended: in every run of `validate` that created a temporary file, whichever
later step failed, the removal of that file is attempted before `validate` returns;
when the removal succeeds the file no longer exists when `validate` returns, and
when the removal fails the status is `error`. -/
theorem C7_temp_file_removed (h : Host) (content : StreamValidator) (files : List String)
    (exe name : String)
    (hurl : HasSuffix content.URL ".mpd" = false)
    (h1 : h.LookPath "mediastreamvalidator" = some exe)
    (h2 : h.CreateTemp "/tmp" "msv-" = some name) :
    Event.remove name ∈ (validate h content files).trace ∧
    (h.Remove name = true → name ∉ (validate h content files).files) ∧
    (h.Remove name = false → (validate h content files).content.Status = "error") := by
  cases hr : h.Remove name <;>
  cases h3 : (h.Run exe ["-t", "30", "--validation-data-path=" ++ name, content.URL]).1
  all_goals
    simp [validate, validate.body, validate.deferred, hurl, h1, h2, h3, hr,
      Run.setStatus, Run.emit]

/-- An instance of the amended C7: on a host where every step succeeds the temporary
file is gone when `validate` returns. -/
theorem C7_temp_file_removed_witness :
    HasSuffix "https://example.com/hls/master.m3u8" ".mpd" = false ∧
    (hostOk sampleReport).LookPath "mediastreamvalidator" =
      some "/usr/local/bin/mediastreamvalidator" ∧
    (hostOk sampleReport).CreateTemp "/tmp" "msv-" = some "/tmp/msv-1" ∧
    "/tmp/msv-1" ∉ (validate (hostOk sampleReport)
      { Id := "1", URL := "https://example.com/hls/master.m3u8", Status := "queued" }
      ["/tmp/other"]).files :=
  ⟨by decide, rfl, rfl,
   (C7_temp_file_removed (hostOk sampleReport)
      { Id := "1", URL := "https://example.com/hls/master.m3u8", Status := "queued" }
      ["/tmp/other"] "/usr/local/bin/mediastreamvalidator" "/tmp/msv-1"
      (by decide) rfl rfl).2.1 rfl⟩

/-! ## Properties of the store and the handlers -/

theorem jobs_getInstance (contents : db) : (getInstance contents).jobs = contents.jobs := by
  cases contents with
  | mk d => cases d <;> rfl

/-- Pushing after `getInstance` appends the job at the end. -/
theorem jobs_push_getInstance (contents : db) (j : StreamValidator) :
    ((getInstance contents).Push j).jobs = contents.jobs ++ [j] := by
  cases contents with
  | mk d => cases d <;> rfl

/-- The job a well-formed request is bound to. -/
theorem bind_json (b : Body) (uuid : String) (now : Time) :
    (postContents emptyStore uuid now (.json b)).scheduled =
      some { Id := b.id.getD uuid
             URL := b.url.getD ""
             Validation := b.validation_info.getD {}
             Status := b.status.getD "queued"
             StartTime := b.start_time.getD now
             EndTime := b.end_time.getD 0 } := rfl

/-- A well-formed request: the job bound, the response, and the store afterwards. -/
theorem post_json (contents : db) (uuid : String) (now : Time) (b : Body) :
    ∃ j, (postContents emptyStore uuid now (.json b)).scheduled = some j ∧
      (postContents contents uuid now (.json b)).scheduled = some j ∧
      (postContents contents uuid now (.json b)).response = .job 201 j ∧
      (postContents contents uuid now (.json b)).contents.jobs = contents.jobs ++ [j] :=
  ⟨_, rfl, rfl, rfl, jobs_push_getInstance contents _⟩

/-- A malformed request: the handler returns before it touches the store. -/
theorem post_malformed (contents : db) (uuid : String) (now : Time) :
    postContents contents uuid now .malformed =
      { contents := contents, response := .abort 400, scheduled := none } := rfl

/-- The store after a sequence of requests holds the jobs of the well-formed ones, in
order, after those it held before. -/
theorem serve_jobs (calls : List Call) (contents : db) :
    (serve contents calls).jobs = contents.jobs ++
      calls.filterMap (fun c => (postContents emptyStore c.uuid c.now c.request).scheduled) := by
  induction calls generalizing contents with
  | nil => simp [serve]
  | cons c rest ih =>
    rw [serve, ih]
    cases hreq : c.request with
    | malformed => simp [post_malformed, hreq]
    | json b =>
      obtain ⟨j, hj, -, -, hjobs⟩ := post_json contents c.uuid c.now b
      simp [hreq, hj, hjobs]

/-- The scan ends in the 404 response exactly when no entry has the id. -/
theorem loop_notFound (id : String) (l : List StreamValidator) :
    getContentByID.loop id l = .message 404 "content not found" ↔ ∀ j ∈ l, j.Id ≠ id := by
  induction l with
  | nil => simp [getContentByID.loop]
  | cons j rest ih =>
    by_cases hj : j.Id = id
    · simp [getContentByID.loop, hj]
    · simp [getContentByID.loop, hj, ih]

/-- The scan answers with the first entry that has the id. -/
theorem loop_first (id : String) (pre post : List StreamValidator) (j : StreamValidator)
    (hpre : ∀ x ∈ pre, x.Id ≠ id) (hj : j.Id = id) :
    getContentByID.loop id (pre ++ j :: post) = .job 200 j := by
  induction pre with
  | nil => simp [getContentByID.loop, hj]
  | cons x rest ih =>
    have hx : x.Id ≠ id := hpre x (List.mem_cons_self _ _)
    simp only [List.cons_append, getContentByID.loop, hx, if_false]
    exact ih (fun y hy => hpre y (List.mem_cons_of_mem _ hy))

/-- A list with an entry of the given id splits at the first such entry. -/
theorem exists_first (id : String) (l : List StreamValidator)
    (hex : ∃ j ∈ l, j.Id = id) :
    ∃ pre j post, l = pre ++ j :: post ∧ (∀ x ∈ pre, x.Id ≠ id) ∧ j.Id = id := by
  induction l with
  | nil => simp at hex
  | cons x rest ih =>
    by_cases hx : x.Id = id
    · exact ⟨[], x, rest, rfl, by simp, hx⟩
    · have hex2 : ∃ j ∈ rest, j.Id = id := by
        obtain ⟨j, hjmem, hj⟩ := hex
        rcases List.mem_cons.mp hjmem with e | hmem
        · exact absurd (e ▸ hj) hx
        · exact ⟨j, hmem, hj⟩
      obtain ⟨pre, j, post, e, hpre, hj⟩ := ih hex2
      refine ⟨x :: pre, j, post, by simp [e], ?_, hj⟩
      intro y hy
      rcases List.mem_cons.mp hy with e2 | hmem
      · exact e2 ▸ hx
      · exact hpre y hmem

/-- C10: `getContentByID` answers 404 with the message `content not found` exactly
when no stored job has the requested id; otherwise it answers 200 with the first
stored job, in insertion order, whose id is the requested one. The jobs stored are
not changed by the lookup. -/
theorem C10_lookup_by_id (contents : db) (id : String) :
    ((getContentByID contents id).2 = .message 404 "content not found" ↔
      ∀ j ∈ contents.jobs, j.Id ≠ id) ∧
    ((∃ j ∈ contents.jobs, j.Id = id) →
      ∃ pre j post, contents.jobs = pre ++ j :: post ∧ (∀ x ∈ pre, x.Id ≠ id) ∧
        j.Id = id ∧ (getContentByID contents id).2 = .job 200 j) ∧
    (getContentByID contents id).1.jobs = contents.jobs := by
  refine ⟨?_, ?_, ?_⟩
  · simp only [getContentByID, jobs_getInstance]
    exact loop_notFound id contents.jobs
  · intro hex
    obtain ⟨pre, j, post, e, hpre, hj⟩ := exists_first id contents.jobs hex
    refine ⟨pre, j, post, e, hpre, hj, ?_⟩
    simp only [getContentByID, jobs_getInstance]
    rw [e]
    exact loop_first id pre post j hpre hj
  · simp only [getContentByID, jobs_getInstance]

/-- C9: starting from the empty store, after any sequence of creation requests the
store holds, in request order, exactly the jobs of the well-formed requests, one
each, whatever their URLs are; a well-formed request yields a job and appends it at
the end, leaving the earlier entries in place; a malformed request yields no job and
leaves the store as it is. -/
theorem C9_one_job_per_request :
    (∀ calls : List Call, (serve emptyStore calls).jobs =
      calls.filterMap (fun c => (postContents emptyStore c.uuid c.now c.request).scheduled)) ∧
    (∀ (contents : db) (uuid : String) (now : Time) (b : Body),
      ∃ j, (postContents contents uuid now (.json b)).scheduled = some j ∧
        (postContents contents uuid now (.json b)).contents.jobs = contents.jobs ++ [j]) ∧
    (∀ (contents : db) (uuid : String) (now : Time),
      (postContents contents uuid now .malformed).scheduled = none ∧
      (postContents contents uuid now .malformed).contents = contents) := by
  refine ⟨?_, ?_, ?_⟩
  · intro calls
    rw [serve_jobs]
    rfl
  · intro contents uuid now b
    obtain ⟨j, -, hs, -, hjobs⟩ := post_json contents uuid now b
    exact ⟨j, hs, hjobs⟩
  · intro contents uuid now
    exact ⟨rfl, rfl⟩

/-- C8, as stated, fails: the body is bound over the defaults, so a well-formed request
that carries a URL and a `status` member creates a job with that status. -/
theorem C8_status_taken_from_body :
    (postContents emptyStore "id-1" 0
      (.json { url := some "https://example.com/hls/master.m3u8",
               status := some "completed" })).response =
      .job 201 { Id := "id-1", URL := "https://example.com/hls/master.m3u8",
                 Status := "completed" } ∧
    (postContents emptyStore "id-1" 0
      (.json { url := some "https://example.com/hls/master.m3u8",
               status := some "completed" })).contents.jobs =
      [{ Id := "id-1", URL := "https://example.com/hls/master.m3u8", Status := "completed" }] ∧
    ¬ ∃ j, (postContents emptyStore "id-1" 0
      (.json { url := some "https://example.com/hls/master.m3u8",
               status := some "completed" })).response = .job 201 j ∧ j.Status = "queued" := by
  refine ⟨rfl, rfl, ?_⟩
  rintro ⟨j, hj, hq⟩
  have e : j = { Id := "id-1", URL := "https://example.com/hls/master.m3u8",
                 Status := "completed" } := by
    have h2 := hj.symm
    simp only [postContents, BindJSON, Response.job.injEq, true_and] at h2
    rw [h2]
    rfl
  rw [e] at hq
  exact absurd hq (by decide)

/-- C8, amended: for a well-formed creation request whose body carries a URL `u` and no
`status` member, the job `postContents` returns has status `queued` and URL `u`, and
it is the job that was stored, appended at the end of the store, and the one handed to
`validate`. -/
theorem C8_created_job (contents : db) (uuid : String) (now : Time) (b : Body) (u : String)
    (hu : b.url = some u) (hs : b.status = none) :
    ∃ j, (postContents contents uuid now (.json b)).response = .job 201 j ∧
      (postContents contents uuid now (.json b)).scheduled = some j ∧
      (postContents contents uuid now (.json b)).contents.jobs = contents.jobs ++ [j] ∧
      j.Status = "queued" ∧ j.URL = u := by
  obtain ⟨j, h0, h1, h2, h3⟩ := post_json contents uuid now b
  refine ⟨j, h2, h1, h3, ?_, ?_⟩
  · rw [bind_json, Option.some.injEq] at h0
    rw [← h0]
    simp [hs]
  · rw [bind_json, Option.some.injEq] at h0
    rw [← h0]
    simp [hu]

/-- An instance of the amended C8: the request sent by the client library, whose body
carries the URL only. -/
theorem C8_created_job_witness :
    ({ url := some "https://example.com/hls/master.m3u8" } : Body).url =
      some "https://example.com/hls/master.m3u8" ∧
    ({ url := some "https://example.com/hls/master.m3u8" } : Body).status = none ∧
    ∃ j, (postContents emptyStore "id-1" 0
        (.json { url := some "https://example.com/hls/master.m3u8" })).response = .job 201 j ∧
      (postContents emptyStore "id-1" 0
        (.json { url := some "https://example.com/hls/master.m3u8" })).scheduled = some j ∧
      (postContents emptyStore "id-1" 0
        (.json { url := some "https://example.com/hls/master.m3u8" })).contents.jobs =
        emptyStore.jobs ++ [j] ∧
      j.Status = "queued" ∧ j.URL = "https://example.com/hls/master.m3u8" :=
  ⟨rfl, rfl,
   C8_created_job emptyStore "id-1" 0 { url := some "https://example.com/hls/master.m3u8" }
     "https://example.com/hls/master.m3u8" rfl rfl⟩

/-- C6, as stated, fails: two well-formed requests whose bodies carry the same `id`
member create two jobs with that id, although the two generated UUIDs differ. -/
theorem C6_duplicate_id :
    (List.map Call.uuid
      [{ uuid := "uuid-1", now := 0, request := .json { id := some "x", url := some "a" } },
       { uuid := "uuid-2", now := 1, request := .json { id := some "x", url := some "b" } }]).Nodup ∧
    ¬ ((serve emptyStore
      [{ uuid := "uuid-1", now := 0, request := .json { id := some "x", url := some "a" } },
       { uuid := "uuid-2", now := 1, request := .json { id := some "x", url := some "b" } }]
      ).jobs.map StreamValidator.Id).Nodup := by
  decide

/-- Without `id` members in the bodies, the ids stored are among the UUIDs drawn, in
the same order. -/
theorem ids_sublist_uuids (calls : List Call)
    (hid : ∀ c ∈ calls, ∀ b, c.request = .json b → b.id = none) :
    List.Sublist
      ((calls.filterMap
        (fun c => (postContents emptyStore c.uuid c.now c.request).scheduled)).map
        StreamValidator.Id)
      (calls.map Call.uuid) := by
  induction calls with
  | nil => simp
  | cons c rest ih =>
    have ih2 := ih (fun d hd => hid d (List.mem_cons_of_mem _ hd))
    cases hreq : c.request with
    | malformed =>
      simp only [List.filterMap_cons, hreq, post_malformed, List.map_cons]
      exact List.Sublist.cons _ ih2
    | json b =>
      have hb : b.id = none := hid c (List.mem_cons_self _ _) b hreq
      simp only [List.filterMap_cons, hreq, bind_json, List.map_cons, hb, Option.getD_none]
      exact List.Sublist.cons₂ _ ih2

/-- C6, amended: in every store state reached from the empty store by a sequence of
creation requests none of whose bodies carries an `id` member, with generated UUIDs
that are pairwise distinct, no two stored jobs have the same id. -/
theorem C6_unique_ids (calls : List Call)
    (huuid : (calls.map Call.uuid).Nodup)
    (hid : ∀ c ∈ calls, ∀ b, c.request = .json b → b.id = none) :
    ((serve emptyStore calls).jobs.map StreamValidator.Id).Nodup := by
  rw [serve_jobs]
  exact List.Nodup.sublist (ids_sublist_uuids calls hid) huuid

/-- An instance of the amended C6: three requests, one malformed, two with the same
URL, none with an `id` member. -/
theorem C6_unique_ids_witness :
    ((serve emptyStore
      [{ uuid := "uuid-1", now := 0, request := .json { url := some "a" } },
       { uuid := "uuid-2", now := 1, request := .malformed },
       { uuid := "uuid-3", now := 2, request := .json { url := some "a" } }]
      ).jobs.map StreamValidator.Id).Nodup :=
  C6_unique_ids
    [{ uuid := "uuid-1", now := 0, request := .json { url := some "a" } },
     { uuid := "uuid-2", now := 1, request := .malformed },
     { uuid := "uuid-3", now := 2, request := .json { url := some "a" } }]
    (by decide)
    (by
      intro c hc b hb
      simp only [List.mem_cons, List.mem_singleton, List.not_mem_nil, or_false] at hc
      rcases hc with rfl | rfl | rfl
      · simp only [Request.json.injEq] at hb
        rw [← hb]
      · exact absurd hb (by simp)
      · simp only [Request.json.injEq] at hb
        rw [← hb])

/-- C5, as stated, fails: when an earlier stored job has the id of the job just
created, `getContentByID` answers with the earlier job, not with the one returned by
`postContents`. -/
theorem C5_lookup_returns_earlier_job :
    (postContents
      (postContents emptyStore "uuid-1" 0
        (.json { id := some "x", url := some "first" })).contents
      "uuid-2" 1 (.json { id := some "x", url := some "second" })).response =
      .job 201 { Id := "x", URL := "second", Status := "queued", StartTime := 1 } ∧
    (getContentByID
      (postContents
        (postContents emptyStore "uuid-1" 0
          (.json { id := some "x", url := some "first" })).contents
        "uuid-2" 1 (.json { id := some "x", url := some "second" })).contents "x").2 =
      .job 200 { Id := "x", URL := "first", Status := "queued", StartTime := 0 } ∧
    (getContentByID
      (postContents
        (postContents emptyStore "uuid-1" 0
          (.json { id := some "x", url := some "first" })).contents
        "uuid-2" 1 (.json { id := some "x", url := some "second" })).contents "x").2 ≠
      .job 200 { Id := "x", URL := "second", Status := "queued", StartTime := 1 } := by
  decide

/-- C5, amended: for every store state and every well-formed creation request, after
`postContents` has returned the job `j`, the list served by `getContents` contains `j`,
and `getContentByID` called with the id of `j` answers 200 with a stored job that has
that id; this job is `j` itself when no job stored earlier has the id of `j`. -/
theorem C5_read_after_write (contents : db) (uuid : String) (now : Time) (b : Body) :
    ∃ j, (postContents contents uuid now (.json b)).response = .job 201 j ∧
      (∃ l, (getContents (postContents contents uuid now (.json b)).contents).2 = .list 200 l ∧
        j ∈ l) ∧
      (∃ k, (getContentByID (postContents contents uuid now (.json b)).contents j.Id).2 =
          .job 200 k ∧
        k.Id = j.Id ∧ k ∈ (postContents contents uuid now (.json b)).contents.jobs) ∧
      ((∀ x ∈ contents.jobs, x.Id ≠ j.Id) →
        (getContentByID (postContents contents uuid now (.json b)).contents j.Id).2 =
          .job 200 j) := by
  obtain ⟨j, -, -, hresp, hjobs⟩ := post_json contents uuid now b
  refine ⟨j, hresp, ?_, ?_, ?_⟩
  · refine ⟨_, rfl, ?_⟩
    rw [jobs_getInstance, hjobs]
    simp
  · have hex : ∃ x ∈ (postContents contents uuid now (.json b)).contents.jobs, x.Id = j.Id :=
      ⟨j, by rw [hjobs]; simp, rfl⟩
    obtain ⟨pre, k, post, e, hpre, hk⟩ := exists_first j.Id _ hex
    refine ⟨k, ?_, hk, by rw [e]; simp⟩
    simp only [getContentByID, jobs_getInstance]
    rw [e]
    exact loop_first j.Id pre post k hpre hk
  · intro hfresh
    simp only [getContentByID, jobs_getInstance]
    rw [hjobs]
    exact loop_first j.Id contents.jobs [] j hfresh rfl

end MSV

